import Mathlib

/-!
Shallow embedding of the scan-and-match engine of the ads.txt/app-ads.txt
checker extension (background script: matcher, registry cache, cooldown-gated
scan scheduler, fetch-with-retry, message handlers), together with theorems
settling the specification claims about it.

JavaScript numbers that the code only ever adds, subtracts and compares are
modelled as `Int` (timestamps, counts, delays); a `message.count` that may be
a non-finite value is modelled as `Option Int` (`none` = not a finite number).
`String(x)` applied to a JSON value is modelled by `jsToString` on `JVal`.
The asynchronous external collaborators (network fetch, page extraction,
`chrome.storage`) are modelled by explicit inputs and explicit state passing.
-/

/-- A JSON scalar as it occurs in a `seller_id` field or a page-extracted id:
either already a string or a number; `String(x)` coercion is `jsToString`. -/
inductive JVal where
  | str (s : String)
  | num (n : Int)
deriving DecidableEq, Repr

/-- JavaScript `String(x)` on a `JVal`. -/
def jsToString : JVal → String
  | .str s => s
  | .num n => toString n

/-- A seller record of `sellers.json`; only `seller_id` is relevant. -/
structure Seller where
  seller_id : JVal
deriving DecidableEq, Repr

/-- JavaScript `new Set(array)`: fold the array, inserting each element that
is not already present (first-occurrence insertion order). -/
def jsSetOfList (l : List String) : List String :=
  l.foldl (fun acc s => if acc.contains s then acc else acc ++ [s]) []

/-- JavaScript `set.has(x)` (SameValueZero on strings is string equality). -/
def jsSetHas (set : List String) (s : String) : Bool :=
  set.contains s

/-- The matcher of `doScanForTab` (background script): build the set of the
string forms of the cached sellers' `seller_id` fields, then count the
page-declared ids whose string form is in that set. -/
def matchCount (pageIds : List JVal) (sellers : List Seller) : Nat :=
  let sellersSet := jsSetOfList (sellers.map (fun s => jsToString s.seller_id))
  pageIds.countP (fun id => jsSetHas sellersSet (jsToString id))

/-- Modelled from the spec's words (for comparison with `matchCount`):
`|{id ∈ P : normalize(id) ∈ {normalize(r.seller_id) : r ∈ R}}|` with
`normalize` the string form. -/
def matchSpec (pageIds : List JVal) (sellers : List Seller) : Nat :=
  (pageIds.filter (fun id =>
    (sellers.map (fun s => jsToString s.seller_id)).contains (jsToString id))).length

lemma mem_foldl_jsInsert (l : List String) (acc : List String) (x : String) :
    x ∈ l.foldl (fun a s => if a.contains s then a else a ++ [s]) acc ↔
      x ∈ acc ∨ x ∈ l := by
  induction l generalizing acc with
  | nil => simp
  | cons s t ih =>
    simp only [List.foldl_cons, ih]
    by_cases hs : acc.contains s = true
    · simp only [if_pos hs]
      have : s ∈ acc := by simpa using hs
      constructor
      · rintro (h | h)
        · exact Or.inl h
        · exact Or.inr (List.mem_cons_of_mem _ h)
      · rintro (h | h)
        · exact Or.inl h
        · rcases List.mem_cons.mp h with rfl | h
          · exact Or.inl this
          · exact Or.inr h
    · simp only [if_neg hs, List.mem_append, List.mem_singleton, List.mem_cons]
      tauto

lemma jsSetHas_jsSetOfList (l : List String) (x : String) :
    jsSetHas (jsSetOfList l) x = l.contains x := by
  have h := mem_foldl_jsInsert l [] x
  simp only [List.not_mem_nil, false_or] at h
  show List.elem x (jsSetOfList l) = List.elem x l
  rw [List.elem_eq_mem, List.elem_eq_mem]
  exact decide_eq_decide.mpr (by simpa [jsSetOfList] using h)

/-- C1: for every list of page-declared ids `P` and every cached registry
sequence `R`, the match count computed by the scan pipeline (lines building
`sellersSet` and counting membership) equals the number of ids in `P` whose
string form is a member of the set of string forms of the `seller_id` fields
of `R` — exact string comparison after `String(...)` normalization, no partial
matching. Determinism on a fixed `(P, R)` pair is inherent: `matchCount` is a
pure function of its two arguments. -/
theorem matchCount_eq_matchSpec (pageIds : List JVal) (sellers : List Seller) :
    matchCount pageIds sellers = matchSpec pageIds sellers := by
  unfold matchCount matchSpec
  rw [List.countP_eq_length_filter]
  congr 1
  apply List.filter_congr
  intro id _
  rw [jsSetHas_jsSetOfList]

example :
    matchCount [JVal.str "123", JVal.str "789"]
      [⟨JVal.str "123"⟩, ⟨JVal.str "456"⟩] = 1 := by decide

/-- The staleness test of `doScanForTab` (line testing
`cached.sellers.length === 0 || Date.now() - cached.ts > cacheTtlMs`). -/
def scanCacheStale (sellers : List Seller) (ts now ttl : Int) : Bool :=
  sellers.isEmpty || (now - ts > ttl)

/-- C3: the staleness predicate used before counting matches is true iff
`now - fetchedAt > ttl` or the cached sellers sequence is empty, and is in
particular always true whenever the sellers sequence is empty (for every
timestamp and every ttl, hence also for every `ttl ≥ 0`). -/
theorem scanCacheStale_spec (sellers : List Seller) (ts now ttl : Int) :
    (scanCacheStale sellers ts now ttl = true ↔
      (now - ts > ttl ∨ sellers = [])) ∧
    (sellers = [] → scanCacheStale sellers ts now ttl = true) := by
  constructor
  · simp [scanCacheStale, List.isEmpty_iff, or_comm]
  · intro h
    simp [scanCacheStale, h]

/-- Witness for C3: concrete evaluation — the empty cache is stale even with
a fresh timestamp. -/
theorem scanCacheStale_spec_witness :
    scanCacheStale [] 100 100 50 = true :=
  (scanCacheStale_spec [] 100 100 50).2 rfl

/-- The `chrome.storage.local` slice holding the registry cache: the raw value
under `CACHE_KEY` (`none` models an absent or non-array value) and the raw
timestamp under `CACHE_TS_KEY` (`none` models an absent/falsy value). -/
structure StorageState where
  cacheSellers : Option (List Seller)
  cacheTs : Option Int
deriving DecidableEq, Repr

/-- Model of `getCachedSellers()`: returns the stored sellers array (empty when absent
or not an array) and the stored timestamp (0 when absent). Never fails. -/
def getCachedSellers (store : StorageState) : List Seller × Int :=
  (store.cacheSellers.getD [], store.cacheTs.getD 0)

/-- Outcome of `fetchWithTimeoutAndRetry(sellersUrl)` followed by
`res.json()` inside `fetchAndCacheSellers`: `failure` is any thrown error
(network error, timeout, non-2xx status after retries, or a JSON parse
error); `success sellersField` is a parsed body whose `sellers` field is
`some` array, or `none` when the field is absent or not an array. -/
inductive FetchResult where
  | failure
  | success (sellersField : Option (List Seller))
deriving DecidableEq, Repr

/-- Model of `fetchAndCacheSellers`: on an empty (falsy) url or a thrown error it
returns `null` without touching storage; on a parsed body it takes
`Array.isArray(data.sellers) ? data.sellers : []`, stores that array together
with `Date.now()` into storage, and returns the array. -/
def fetchAndCacheSellers (sellersUrl : String) (fr : FetchResult) (now : Int)
    (store : StorageState) : Option (List Seller) × StorageState :=
  if sellersUrl = "" then (none, store)
  else
    match fr with
    | .failure => (none, store)
    | .success sellersField =>
        let sellers := sellersField.getD []
        (some sellers, { cacheSellers := some sellers, cacheTs := some now })

/-- C2 counterexample: a refresh whose response body parses but whose
`sellers` field is malformed (not an array) does **not** return null and does
**not** leave the previously stored cache untouched: it returns `[]` and
overwrites the cache with `([], now)`. -/
theorem fetchAndCacheSellers_malformed_overwrites :
    ¬ ((fetchAndCacheSellers "https://adwmg.com/sellers.json"
          (.success none) 100 ⟨some [⟨JVal.str "1"⟩], some 5⟩).1 = none ∧
       (fetchAndCacheSellers "https://adwmg.com/sellers.json"
          (.success none) 100 ⟨some [⟨JVal.str "1"⟩], some 5⟩).2
         = ⟨some [⟨JVal.str "1"⟩], some 5⟩) := by
  decide

/-- C2 amended: a refresh that throws (network error, timeout, bad HTTP
status, JSON parse error) — or that has no url to fetch — returns null and
leaves the stored cache exactly as it was, so `getCachedSellers` afterwards
returns the same data as before; a response body that parses, however, is
always treated as a successful refresh: the `sellers` field defaults to the
empty array when absent or malformed and the cache is overwritten with
`(sellers, now)`, the sellers array (possibly empty, never null) being
returned. -/
theorem fetchAndCacheSellers_failure_preserves_cache
    (url : String) (fr : FetchResult) (now : Int) (store : StorageState) :
    (fetchAndCacheSellers url .failure now store = (none, store)) ∧
    (fetchAndCacheSellers "" fr now store = (none, store)) ∧
    (getCachedSellers (fetchAndCacheSellers url .failure now store).2
      = getCachedSellers store) ∧
    (∀ sellersField, url ≠ "" →
      fetchAndCacheSellers url (.success sellersField) now store
        = (some (sellersField.getD []),
           ⟨some (sellersField.getD []), some now⟩)) := by
  refine ⟨?_, ?_, ?_, ?_⟩
  · by_cases h : url = "" <;> simp [fetchAndCacheSellers, h]
  · simp [fetchAndCacheSellers]
  · by_cases h : url = "" <;> simp [fetchAndCacheSellers, h]
  · intro sellersField h
    simp [fetchAndCacheSellers, h]

/-- Witness for C2's amended theorem: concrete failing refresh leaves a
concrete cache unchanged, and a concrete malformed-body refresh stores the
empty array. -/
theorem fetchAndCacheSellers_failure_preserves_cache_witness :
    (fetchAndCacheSellers "https://adwmg.com/sellers.json" .failure 100
        ⟨some [⟨JVal.str "1"⟩], some 5⟩
      = (none, ⟨some [⟨JVal.str "1"⟩], some 5⟩)) ∧
    (fetchAndCacheSellers "https://adwmg.com/sellers.json" (.success none) 100
        ⟨some [⟨JVal.str "1"⟩], some 5⟩
      = (some [], ⟨some [], some 100⟩)) :=
  ⟨(fetchAndCacheSellers_failure_preserves_cache "https://adwmg.com/sellers.json"
      .failure 100 ⟨some [⟨JVal.str "1"⟩], some 5⟩).1,
   (fetchAndCacheSellers_failure_preserves_cache "https://adwmg.com/sellers.json"
      .failure 100 ⟨some [⟨JVal.str "1"⟩], some 5⟩).2.2.2 none (by decide)⟩

/-- The `getSellersCache` message handler: reads the cache, decides whether
to fire a background `fetchAndCacheSellers()` (condition
`!cached.ts || Date.now() - cached.ts > cacheTtlMs`), and responds with the
cached sellers and timestamp. Result: `((sellers, ts), refreshTriggered)`. -/
def getSellersCacheHandler (store : StorageState) (now ttl : Int) :
    (List Seller × Int) × Bool :=
  let cached := getCachedSellers store
  ((cached.1, cached.2), (cached.2 == 0) || (now - cached.2 > ttl))

/-- C4 counterexample: with a cache that holds an **empty** sellers array and
a fresh timestamp, the claim's staleness notion (empty or expired) is true,
yet the handler does not trigger a background refresh — its trigger condition
tests only the timestamp, never emptiness. -/
theorem getSellersCacheHandler_empty_no_refresh :
    scanCacheStale (getCachedSellers ⟨some [], some 10⟩).1
        (getCachedSellers ⟨some [], some 10⟩).2 10 5 = true ∧
    (getSellersCacheHandler ⟨some [], some 10⟩ 10 5).2 = false := by
  decide

/-- C4 amended: the `getSellersCache` handler answers immediately with
exactly the cached sellers and timestamp (the response does not depend on any
refresh outcome), and it triggers a background refresh as a side effect
exactly when the cached timestamp is 0/absent or `now - fetchedAt > ttl`;
the emptiness of the cached sellers sequence plays no role in the trigger. -/
theorem getSellersCacheHandler_spec (store : StorageState) (now ttl : Int) :
    ((getSellersCacheHandler store now ttl).1 = getCachedSellers store) ∧
    ((getSellersCacheHandler store now ttl).2 = true ↔
      ((getCachedSellers store).2 = 0 ∨
       now - (getCachedSellers store).2 > ttl)) := by
  constructor
  · rfl
  · simp [getSellersCacheHandler]

/-- Constant `SCAN_COOLDOWN_MS`: minimal interval between scans per tab. -/
def SCAN_COOLDOWN_MS : Int := 60 * 1000

/-- Constant `FETCH_RETRIES`: default number of additional fetch attempts. -/
def FETCH_RETRIES : Nat := 1

/-- The per-tab slots of the runtime maps `lastScanAt` and `countsByTab`
(`none` models an absent key). -/
structure TabState where
  lastScanAt : Option Int
  count : Option Nat
deriving DecidableEq, Repr

/-- The tab object returned by `chrome.tabs.get`; only `url` is used. -/
structure Tab where
  url : String
deriving DecidableEq, Repr

/-- ASCII lower-casing of one character (the case folding relevant to the
`i` flag of `/^https?:\/\//i`, whose pattern is ASCII-only). -/
def asciiLower (c : Char) : Char :=
  if 'A' ≤ c && c ≤ 'Z' then Char.ofNat (c.toNat + 32) else c

/-- The test `/^https?:\/\//i.test(tab.url)` (together with the preceding
falsy-url check, which an empty string also fails): case-insensitively, the
url starts with `http://` or `https://`. -/
def urlIsHttp (u : String) : Bool :=
  let l := u.data.map asciiLower
  "http://".data.isPrefixOf l || "https://".data.isPrefixOf l

/-- Model of `doScanForTab(tabId)`: the scan pipeline for one tab. In order: the
`badgeEnabled` guard; the cooldown gate (`Date.now() - lastScanAt < 60000`
returns null with no state change); recording `lastScanAt = now`; the tab
sanity check (tab gone, or url not http/https, returns null); page-id
extraction (`pageIds`, an external input here); loading the cached sellers;
if they are empty or stale, one `fetchAndCacheSellers` attempt whose success
replaces the sellers used and whose failure keeps the cached ones; the match
count over the resulting sellers; and storing the count in `countsByTab`.
Result: `(returned value, tab state, storage state)`. -/
def doScanForTab (badgeEnabled : Bool) (sellersUrl : String)
    (cacheTtlMs now : Int) (tab : Option Tab) (pageIds : List JVal)
    (fr : FetchResult) (st : TabState) (store : StorageState) :
    Option Nat × TabState × StorageState :=
  if badgeEnabled = false then (none, st, store)
  else if now - st.lastScanAt.getD 0 < SCAN_COOLDOWN_MS then (none, st, store)
  else
    let st1 : TabState := { st with lastScanAt := some now }
    match tab with
    | none => (none, st1, store)
    | some t =>
      if urlIsHttp t.url = false then (none, st1, store)
      else
        let cached := getCachedSellers store
        let refreshed :=
          if scanCacheStale cached.1 cached.2 now cacheTtlMs then
            match fetchAndCacheSellers sellersUrl fr now store with
            | (some fetched, store1) => (fetched, store1)
            | (none, store1) => (cached.1, store1)
          else (cached.1, store)
        let matched := matchCount pageIds refreshed.1
        (some matched, { st1 with count := some matched }, refreshed.2)

lemma doScanForTab_rejected (sellersUrl : String) (cacheTtlMs now : Int)
    (tab : Option Tab) (pageIds : List JVal) (fr : FetchResult)
    (st : TabState) (store : StorageState)
    (h : now - st.lastScanAt.getD 0 < SCAN_COOLDOWN_MS) :
    doScanForTab true sellersUrl cacheTtlMs now tab pageIds fr st store
      = (none, st, store) := by
  simp [doScanForTab, h]

lemma doScanForTab_passed_lastScanAt (sellersUrl : String)
    (cacheTtlMs now : Int) (tab : Option Tab) (pageIds : List JVal)
    (fr : FetchResult) (st : TabState) (store : StorageState)
    (h : ¬ (now - st.lastScanAt.getD 0 < SCAN_COOLDOWN_MS)) :
    ((doScanForTab true sellersUrl cacheTtlMs now tab pageIds fr st
        store).2.1).lastScanAt = some now := by
  simp only [doScanForTab, if_neg h]
  cases tab with
  | none => simp
  | some t =>
    by_cases hu : urlIsHttp t.url = false
    · simp [hu]
    · simp [hu]

/-- C5: when the cooldown gate rejects a scan, the call returns null with no
change to the tab's state or to storage; and after a scan trigger at `t1`
that passes the gate, any second trigger at `t2` within the cooldown window
(`t2 - t1 < 60000`, default 60 s), with any settings, tab, page ids and fetch
outcome, is rejected: it returns null and leaves the state produced by the
first trigger untouched, so at most one scan pipeline execution takes
place. -/
theorem scan_cooldown_single_execution
    (url url2 : String) (ttl ttl2 t1 t2 : Int) (be2 : Bool)
    (tab tab2 : Option Tab) (pids pids2 : List JVal) (fr fr2 : FetchResult)
    (st : TabState) (store : StorageState)
    (h1 : ¬ (t1 - st.lastScanAt.getD 0 < SCAN_COOLDOWN_MS))
    (h2 : t2 - t1 < SCAN_COOLDOWN_MS) :
    (∀ (u : String) (c n : Int) (tb : Option Tab) (p : List JVal)
       (f : FetchResult) (st' : TabState) (sto' : StorageState),
       n - st'.lastScanAt.getD 0 < SCAN_COOLDOWN_MS →
       doScanForTab true u c n tb p f st' sto' = (none, st', sto')) ∧
    doScanForTab be2 url2 ttl2 t2 tab2 pids2 fr2
        (doScanForTab true url ttl t1 tab pids fr st store).2.1
        (doScanForTab true url ttl t1 tab pids fr st store).2.2
      = (none,
         (doScanForTab true url ttl t1 tab pids fr st store).2.1,
         (doScanForTab true url ttl t1 tab pids fr st store).2.2) := by
  refine ⟨fun u c n tb p f st' sto' h => doScanForTab_rejected u c n tb p f st' sto' h, ?_⟩
  cases be2 with
  | false => simp [doScanForTab]
  | true =>
    apply doScanForTab_rejected
    rw [doScanForTab_passed_lastScanAt url ttl t1 tab pids fr st store h1]
    simpa using h2

/-- Witness for C5: a first scan at `t1 = 60000` on a fresh tab state passes
the gate; a second trigger at `t2 = 60001` is rejected and changes nothing. -/
theorem scan_cooldown_single_execution_witness :
    doScanForTab true "u" 1000 60001 none [] .failure
        (doScanForTab true "u" 1000 60000 none [] .failure ⟨none, none⟩
          ⟨none, none⟩).2.1
        (doScanForTab true "u" 1000 60000 none [] .failure ⟨none, none⟩
          ⟨none, none⟩).2.2
      = (none,
         (doScanForTab true "u" 1000 60000 none [] .failure ⟨none, none⟩
           ⟨none, none⟩).2.1,
         (doScanForTab true "u" 1000 60000 none [] .failure ⟨none, none⟩
           ⟨none, none⟩).2.2) :=
  (scan_cooldown_single_execution "u" "u" 1000 1000 60000 60001 true
    none none [] [] .failure .failure ⟨none, none⟩ ⟨none, none⟩
    (by decide) (by decide)).2

/-- C9: `doScanForTab` records `lastScanAt = now` immediately after passing
the cooldown gate and before the tab is validated, so a scan aborted because
the tab is gone or its url is not http/https still consumes a full cooldown
window: the call returns null having changed only `lastScanAt`, and every
subsequent trigger within the window (`t2 - now < 60000`), with any badge
setting and inputs, is skipped with no state change even though no scan
ran. -/
theorem aborted_scan_consumes_cooldown
    (url : String) (ttl now : Int) (tab : Option Tab) (pids : List JVal)
    (fr : FetchResult) (st : TabState) (store : StorageState)
    (hgate : ¬ (now - st.lastScanAt.getD 0 < SCAN_COOLDOWN_MS))
    (htab : ∀ t, tab = some t → urlIsHttp t.url = false) :
    doScanForTab true url ttl now tab pids fr st store
      = (none, { st with lastScanAt := some now }, store) ∧
    (∀ (be2 : Bool) (url2 : String) (ttl2 t2 : Int) (tab2 : Option Tab)
       (pids2 : List JVal) (fr2 : FetchResult),
       t2 - now < SCAN_COOLDOWN_MS →
       doScanForTab be2 url2 ttl2 t2 tab2 pids2 fr2
           { st with lastScanAt := some now } store
         = (none, { st with lastScanAt := some now }, store)) := by
  constructor
  · simp only [doScanForTab, if_neg hgate]
    cases tab with
    | none => simp
    | some t => simp [htab t rfl]
  · intro be2 url2 ttl2 t2 tab2 pids2 fr2 h2
    cases be2 with
    | false => simp [doScanForTab]
    | true =>
      apply doScanForTab_rejected
      simpa using h2

/-- Witness for C9: a tab whose url is `ftp://x` aborts the scan at
`t = 60000`, yet a trigger at `t = 119999` is still skipped. -/
theorem aborted_scan_consumes_cooldown_witness :
    doScanForTab true "u" 1000 60000 (some ⟨"ftp://x"⟩) [] .failure
        ⟨none, none⟩ ⟨none, none⟩
      = (none, ⟨some 60000, none⟩, ⟨none, none⟩) ∧
    doScanForTab true "u" 1000 119999 (some ⟨"https://e.com"⟩) [] .failure
        ⟨some 60000, none⟩ ⟨none, none⟩
      = (none, ⟨some 60000, none⟩, ⟨none, none⟩) :=
  ⟨(aborted_scan_consumes_cooldown "u" 1000 60000 (some ⟨"ftp://x"⟩) []
      .failure ⟨none, none⟩ ⟨none, none⟩ (by decide)
      (by intro t ht; cases ht; decide)).1,
   (aborted_scan_consumes_cooldown "u" 1000 60000 (some ⟨"ftp://x"⟩) []
      .failure ⟨none, none⟩ ⟨none, none⟩ (by decide)
      (by intro t ht; cases ht; decide)).2 true "u" 1000 119999
      (some ⟨"https://e.com"⟩) [] .failure (by decide)⟩

/-- Model of `cancelScheduled(tabId)`: clears any pending timer for the tab. The timer
slot is modelled by its absolute fire time. -/
def cancelScheduled (timer : Option Int) : Option Int := none

/-- Model of `scheduleScan(tabId)`: cancels any pending timer first; does nothing more
when the badge is disabled; otherwise computes
`delayMs = scanTiming === "delayed" ? Math.max(0, scanDelay) * 1000 : 0` and
either runs `doScanForTab` immediately (`delayMs = 0`, flag `true`) or
schedules a timer that will fire at `now + delayMs`. -/
def scheduleScan (badgeEnabled : Bool) (scanTiming : String) (scanDelay : Int)
    (now : Int) (timer : Option Int) : Option Int × Bool :=
  let cleared := cancelScheduled timer
  if badgeEnabled = false then (cleared, false)
  else
    let delayMs := if scanTiming = "delayed" then max 0 scanDelay * 1000 else 0
    if delayMs = 0 then (cleared, true)
    else (some (now + delayMs), false)

/-- C6: a second trigger at `t2`, arriving while a delayed scan scheduled to
fire at `fireAt > t2` is still pending, cancels the pending timer
(`cancelScheduled` clears the slot) and schedules a single new one timed from
`t2`: the resulting state holds exactly one pending timer, firing at
`t2 + scanDelay·1000`, and no scan was executed immediately — last trigger
wins. -/
theorem reschedule_last_trigger_wins (scanDelay t2 fireAt : Int)
    (hd : 0 < scanDelay) (hpending : t2 < fireAt) :
    cancelScheduled (some fireAt) = none ∧
    scheduleScan true "delayed" scanDelay t2 (some fireAt)
      = (some (t2 + max 0 scanDelay * 1000), false) := by
  refine ⟨rfl, ?_⟩
  have hmax : max 0 scanDelay = scanDelay := max_eq_right hd.le
  have hne : ¬ (max 0 scanDelay * 1000 = 0) := by
    rw [hmax]
    intro h
    omega
  simp [scheduleScan, cancelScheduled, hne]

/-- Witness for C6: with a 10 s delay, a second trigger at `t2 = 5000` while
a timer is pending for `t = 8000` leaves exactly one timer, firing at
`15000`. -/
theorem reschedule_last_trigger_wins_witness :
    cancelScheduled (some 8000) = none ∧
    scheduleScan true "delayed" 10 5000 (some 8000) = (some 15000, false) :=
  reschedule_last_trigger_wins 10 5000 8000 (by decide) (by decide)

/-- Model of `applyBadgeForTab(tabId)`: when the badge is disabled the badge text is
set to the empty string; otherwise the text is the stored count when it is
positive (`countsByTab[tabId] || 0`) and the empty string otherwise. The
result is the text passed to `chrome.action.setBadgeText`. -/
def applyBadgeForTab (badgeEnabled : Bool) (count : Option Int) : String :=
  if badgeEnabled = false then ""
  else
    let c := count.getD 0
    if 0 < c then toString c else ""

/-- The `chrome.tabs.onActivated` listener: when the badge is disabled it
sets the badge text to the empty string and returns without touching the
timer; otherwise it applies the badge for the tab and calls `scheduleScan`.
Result: `(badge text, pending timer, scan executed immediately)`. -/
def onActivated (badgeEnabled : Bool) (count : Option Int)
    (scanTiming : String) (scanDelay now : Int) (timer : Option Int) :
    String × Option Int × Bool :=
  if badgeEnabled = false then ("", timer, false)
  else
    let text := applyBadgeForTab badgeEnabled count
    let sched := scheduleScan badgeEnabled scanTiming scanDelay now timer
    (text, sched.1, sched.2)

/-- C8: whenever `badgeEnabled` is false, no scan is scheduled or executed
for any session regardless of trigger events or settings — `scheduleScan`
leaves no timer and fires nothing, `doScanForTab` returns null without any
state change, the activation listener schedules nothing — and the badge text
is always set to the empty string (by `applyBadgeForTab` and by the
activation listener). -/
theorem badge_disabled_inert (timing : String) (delay now : Int)
    (timer : Option Int) (url : String) (ttl tnow : Int) (tab : Option Tab)
    (pids : List JVal) (fr : FetchResult) (st : TabState)
    (store : StorageState) (count : Option Int) :
    scheduleScan false timing delay now timer = (none, false) ∧
    doScanForTab false url ttl tnow tab pids fr st store
      = (none, st, store) ∧
    applyBadgeForTab false count = "" ∧
    onActivated false count timing delay now timer = ("", timer, false) := by
  refine ⟨?_, ?_, ?_, ?_⟩
  · simp [scheduleScan, cancelScheduled]
  · simp [doScanForTab]
  · rfl
  · rfl

lemma toDigitsCore_ne_nil (b : Nat) (fuel n : Nat) (ds : List Char)
    (h : ds ≠ []) : Nat.toDigitsCore b fuel n ds ≠ [] := by
  induction fuel generalizing n ds with
  | zero => simpa [Nat.toDigitsCore] using h
  | succ fuel ih =>
    simp only [Nat.toDigitsCore]
    split
    · simp
    · exact ih _ _ (by simp)

lemma toDigits_ne_nil (b n : Nat) : Nat.toDigits b n ≠ [] := by
  simp only [Nat.toDigits, Nat.toDigitsCore]
  split
  · simp
  · exact toDigitsCore_ne_nil _ _ _ _ (by simp)

lemma nat_repr_ne_empty (n : Nat) : Nat.repr n ≠ "" := by
  intro h
  have hd : (Nat.toDigits 10 n) = [] := by
    have := congrArg String.data h
    simpa [Nat.repr, List.asString] using this
  exact toDigits_ne_nil 10 n hd

lemma int_toString_pos_ne_empty (k : Int) (h : 0 < k) : toString k ≠ "" := by
  cases k with
  | ofNat m => exact nat_repr_ne_empty m
  | negSucc m => exact absurd h (by simp)

/-- Clamp `Number.isFinite(message.count) ? Math.max(0, message.count) : 0` — the
clamping applied to every externally pushed count (`none` models a
`message.count` that is not a finite number). -/
def effCount (c : Option Int) : Int :=
  match c with
  | some n => max 0 n
  | none => 0

/-- The `setBadge` message handler: when the badge is disabled it sets the
badge text to the empty string and marks the message ignored; otherwise it
clamps the count and sets the text to the count when positive and to the
empty string otherwise. Result: `(badge text, ignored)`. -/
def setBadgeHandler (badgeEnabled : Bool) (c : Option Int) : String × Bool :=
  if badgeEnabled = false then ("", true)
  else
    let count := effCount c
    (if 0 < count then toString count else "", false)

/-- The `scanResult` message handler: when the sender has a tab id, the
clamped count is stored in `countsByTab` under that id; otherwise nothing is
stored. The count map is modelled as a function from tab ids. -/
def scanResultHandler (senderTabId : Option Int) (c : Option Int)
    (counts : Int → Option Int) : Int → Option Int :=
  match senderTabId with
  | some tabId => fun k => if k = tabId then some (effCount c) else counts k
  | none => counts

/-- C10 counterexample: with the badge disabled, `setBadge` with the finite
count 5 displays the empty string, not the text of `max(0, 5) = 5` — the
displayed value is not `max(0, count)` for every externally pushed count. -/
theorem setBadgeHandler_disabled_not_clamped :
    ¬ ((setBadgeHandler false (some 5)).1
        = (if 0 < effCount (some 5) then toString (effCount (some 5))
           else "")) := by
  decide

/-- C10 amended: a `scanResult` message with a sender tab id stores exactly
the clamp `max(0, count)` of a finite count and `0` of a non-finite one, so
every count held in the count map is a non-negative finite number; a
`setBadge` message, **when the badge is enabled**, displays the text of the
same clamped value and the badge text is empty exactly when that effective
count is 0; when the badge is disabled, `setBadge` sets the empty badge text
regardless of the count. -/
theorem external_count_clamped (tabId : Int) (c : Option Int)
    (counts : Int → Option Int) :
    (scanResultHandler (some tabId) c counts tabId = some (effCount c)) ∧
    (0 ≤ effCount c) ∧
    ((setBadgeHandler true c).1
      = (if 0 < effCount c then toString (effCount c) else "")) ∧
    (((setBadgeHandler true c).1 = "") ↔ effCount c = 0) ∧
    ((setBadgeHandler false c).1 = "") := by
  refine ⟨by simp [scanResultHandler], ?_, rfl, ?_, rfl⟩
  · cases c with
    | none => simp [effCount]
    | some n => simp [effCount]
  · constructor
    · intro h
      by_contra hne
      have hpos : 0 < effCount c := by
        cases c with
        | none => simp [effCount] at hne
        | some n =>
          simp only [effCount] at hne ⊢
          omega
      rw [setBadgeHandler] at h
      simp only [Bool.false_eq_true, if_false, if_pos hpos] at h
      exact int_toString_pos_ne_empty _ hpos h
    · intro h
      simp [setBadgeHandler, h]

/-- A resolved `fetch` response; only `ok` and `status` are used. -/
structure FetchResp where
  ok : Bool
  status : Int
deriving DecidableEq, Repr

/-- What one `await fetch(...)` inside `fetchWithTimeoutAndRetry` does:
either the promise rejects (network failure, or the timeout's abort) with an
error, or it resolves to a response. -/
inductive AttemptOutcome where
  | thrown (e : String)
  | resp (r : FetchResp)
deriving DecidableEq, Repr

/-- The result one attempt of the retry loop produces: a resolved response
with `res.ok` is returned; a resolved response without `res.ok` raises
`HTTP <status>`; a rejected fetch raises its error. -/
def attemptResult : AttemptOutcome → Except String FetchResp
  | .resp r => if r.ok then .ok r else .error ("HTTP " ++ toString r.status)
  | .thrown e => .error e

/-- Whether an attempt ends in a raised error. -/
def attemptFails (o : AttemptOutcome) : Bool :=
  match attemptResult o with
  | .ok _ => false
  | .error _ => true

/-- Timer events of one attempt, in order: `timerStart` is the `setTimeout`
opening the attempt; `timerClear` is a `clearTimeout(id)`; `backoffWait` is
the `setTimeout`-based sleep between attempts. -/
inductive FetchEv where
  | timerStart
  | timerClear
  | backoffWait (ms : Int)
deriving DecidableEq, Repr

/-- The timer events of one attempt: the timer is started; on a resolved
response it is cleared in the `try` block, and cleared a second time in the
`catch` block when `!res.ok` raised; on a rejected fetch it is cleared in the
`catch` block. -/
def attemptEvents : AttemptOutcome → List FetchEv
  | .resp r =>
      if r.ok then [.timerStart, .timerClear]
      else [.timerStart, .timerClear, .timerClear]
  | .thrown _ => [.timerStart, .timerClear]

/-- Number of `timerStart` events in a trace. -/
def countStarts (l : List FetchEv) : Nat :=
  l.countP (fun e => e == FetchEv.timerStart)

/-- Number of `timerClear` events in a trace. -/
def countClears (l : List FetchEv) : Nat :=
  l.countP (fun e => e == FetchEv.timerClear)

/-- One run of the retry loop: final result, number of attempts made,
backoff waits performed (in order), and the timer-event trace. -/
structure FetchRun where
  result : Except String FetchResp
  attempts : Nat
  waits : List Int
  events : List FetchEv

/-- The loop body of `fetchWithTimeoutAndRetry`, indexed by the current
0-based attempt number and by the number of attempts still allowed after
this one (`remaining = retries - attempt`; `remaining = 0` is the
`attempt === retries` exit). A successful attempt returns its response; a
failed attempt with no attempts remaining rethrows its error; otherwise the
loop sleeps `300 · (attempt + 1)` ms and retries. -/
def fetchGo (outcomes : Nat → AttemptOutcome) : Nat → Nat → FetchRun
  | attempt, 0 =>
    { result := attemptResult (outcomes attempt), attempts := 1, waits := [],
      events := attemptEvents (outcomes attempt) }
  | attempt, remaining + 1 =>
    match attemptResult (outcomes attempt) with
    | .ok r =>
      { result := .ok r, attempts := 1, waits := [],
        events := attemptEvents (outcomes attempt) }
    | .error _ =>
      let rest := fetchGo outcomes (attempt + 1) remaining
      { result := rest.result, attempts := rest.attempts + 1,
        waits := 300 * (attempt + 1) :: rest.waits,
        events := attemptEvents (outcomes attempt)
          ++ FetchEv.backoffWait (300 * (attempt + 1)) :: rest.events }

/-- Model of `fetchWithTimeoutAndRetry(url, opts)`: run the attempt loop from
attempt 0 with `retries` additional attempts allowed. -/
def fetchWithTimeoutAndRetry (outcomes : Nat → AttemptOutcome)
    (retries : Nat) : FetchRun :=
  fetchGo outcomes 0 retries

lemma fetchGo_attempts_pos (outcomes : Nat → AttemptOutcome)
    (attempt remaining : Nat) :
    1 ≤ (fetchGo outcomes attempt remaining).attempts := by
  cases remaining with
  | zero => simp [fetchGo]
  | succ r =>
    simp only [fetchGo]
    cases h : attemptResult (outcomes attempt) with
    | ok res => simp
    | error e => simp

lemma fetchGo_attempts_le (outcomes : Nat → AttemptOutcome)
    (attempt remaining : Nat) :
    (fetchGo outcomes attempt remaining).attempts ≤ remaining + 1 := by
  induction remaining generalizing attempt with
  | zero => simp [fetchGo]
  | succ r ih =>
    simp only [fetchGo]
    cases h : attemptResult (outcomes attempt) with
    | ok res => simp
    | error e =>
      have := ih (attempt + 1)
      simp only []
      omega

lemma fetchGo_waits (outcomes : Nat → AttemptOutcome)
    (attempt remaining : Nat) :
    (fetchGo outcomes attempt remaining).waits
      = (List.range ((fetchGo outcomes attempt remaining).attempts - 1)).map
          (fun (i : Nat) => 300 * ((attempt : Int) + 1 + (i : Int))) := by
  induction remaining generalizing attempt with
  | zero => simp [fetchGo]
  | succ r ih =>
    simp only [fetchGo]
    cases h : attemptResult (outcomes attempt) with
    | ok res => simp
    | error e =>
      simp only []
      have hpos := fetchGo_attempts_pos outcomes (attempt + 1) r
      have hn : (fetchGo outcomes (attempt + 1) r).attempts - 1 + 1
          = (fetchGo outcomes (attempt + 1) r).attempts := by omega
      rw [Nat.add_sub_cancel, ← hn, List.range_succ_eq_map, List.map_cons,
        List.map_map]
      simp only [Nat.cast_zero, add_zero]
      congr 1
      rw [ih (attempt + 1)]
      apply List.map_congr_left
      intro a _
      simp only [Function.comp]
      push_cast
      ring

lemma attemptEvents_starts (o : AttemptOutcome) :
    countStarts (attemptEvents o) = 1 := by
  cases o with
  | thrown e => rfl
  | resp r => cases hr : r.ok <;> simp [attemptEvents, countStarts, hr]

lemma attemptEvents_clears (o : AttemptOutcome) :
    1 ≤ countClears (attemptEvents o) := by
  cases o with
  | thrown e => simp [attemptEvents, countClears]
  | resp r => cases hr : r.ok <;> simp [attemptEvents, countClears, hr]

lemma fetchGo_starts (outcomes : Nat → AttemptOutcome)
    (attempt remaining : Nat) :
    countStarts (fetchGo outcomes attempt remaining).events
      = (fetchGo outcomes attempt remaining).attempts := by
  induction remaining generalizing attempt with
  | zero => simp [fetchGo, attemptEvents_starts]
  | succ r ih =>
    simp only [fetchGo]
    cases h : attemptResult (outcomes attempt) with
    | ok res => simp [attemptEvents_starts]
    | error e =>
      simp only []
      have h1 := attemptEvents_starts (outcomes attempt)
      have h2 := ih (attempt + 1)
      simp only [countStarts, List.countP_append, List.countP_cons] at h1 h2 ⊢
      simp at h1 h2 ⊢
      omega

lemma fetchGo_clears (outcomes : Nat → AttemptOutcome)
    (attempt remaining : Nat) :
    (fetchGo outcomes attempt remaining).attempts
      ≤ countClears (fetchGo outcomes attempt remaining).events := by
  induction remaining generalizing attempt with
  | zero =>
    simpa [fetchGo] using attemptEvents_clears (outcomes attempt)
  | succ r ih =>
    simp only [fetchGo]
    cases h : attemptResult (outcomes attempt) with
    | ok res => simpa using attemptEvents_clears (outcomes attempt)
    | error e =>
      simp only []
      have h1 := attemptEvents_clears (outcomes attempt)
      have h2 := ih (attempt + 1)
      simp only [countClears, List.countP_append, List.countP_cons] at h1 h2 ⊢
      omega

lemma fetchGo_allfail (outcomes : Nat → AttemptOutcome)
    (attempt remaining : Nat)
    (h : ∀ i, attempt ≤ i → i ≤ attempt + remaining →
      attemptFails (outcomes i) = true) :
    (fetchGo outcomes attempt remaining).attempts = remaining + 1 ∧
    (fetchGo outcomes attempt remaining).result
      = attemptResult (outcomes (attempt + remaining)) := by
  induction remaining generalizing attempt with
  | zero => exact ⟨rfl, rfl⟩
  | succ r ih =>
    have hfail : attemptFails (outcomes attempt) = true :=
      h attempt le_rfl (by omega)
    have herr : ∃ e, attemptResult (outcomes attempt) = .error e := by
      unfold attemptFails at hfail
      cases hres : attemptResult (outcomes attempt) with
      | ok res => rw [hres] at hfail; simp at hfail
      | error e => exact ⟨e, rfl⟩
    obtain ⟨e, he⟩ := herr
    have ihh := ih (attempt + 1) (fun i h1 h2 => h i (by omega) (by omega))
    have harr : attempt + 1 + r = attempt + (r + 1) := by omega
    rw [harr] at ihh
    simp only [fetchGo, he]
    exact ⟨by rw [ihh.1], ihh.2⟩

/-- C7: with `outcomes i` the behaviour of the `i`-th `fetch` attempt,
`fetchWithTimeoutAndRetry` (default `FETCH_RETRIES = 1` additional attempts)
makes at most `1 + retries` attempts; the waits between consecutive attempts
are exactly `300 ms × attemptNumber` (1-based) in order; every attempt's
timeout timer is started exactly once and cleared at least once (the trace
holds one `timerStart` per attempt and at least as many `timerClear`s); and
if every attempt up to `retries` fails, the loop makes exactly `retries + 1`
attempts and rethrows the error of the last attempt rather than retrying
further. -/
theorem fetch_retry_bounded (outcomes : Nat → AttemptOutcome)
    (retries : Nat) :
    FETCH_RETRIES = 1 ∧
    (fetchWithTimeoutAndRetry outcomes retries).attempts ≤ retries + 1 ∧
    (fetchWithTimeoutAndRetry outcomes retries).waits
      = (List.range
          ((fetchWithTimeoutAndRetry outcomes retries).attempts - 1)).map
          (fun (i : Nat) => 300 * ((i : Int) + 1)) ∧
    countStarts (fetchWithTimeoutAndRetry outcomes retries).events
      = (fetchWithTimeoutAndRetry outcomes retries).attempts ∧
    (fetchWithTimeoutAndRetry outcomes retries).attempts
      ≤ countClears (fetchWithTimeoutAndRetry outcomes retries).events ∧
    ((∀ i, i ≤ retries → attemptFails (outcomes i) = true) →
      (fetchWithTimeoutAndRetry outcomes retries).attempts = retries + 1 ∧
      (fetchWithTimeoutAndRetry outcomes retries).result
        = attemptResult (outcomes retries)) := by
  refine ⟨rfl, fetchGo_attempts_le outcomes 0 retries, ?_, 
    fetchGo_starts outcomes 0 retries, fetchGo_clears outcomes 0 retries, ?_⟩
  · rw [fetchWithTimeoutAndRetry, fetchGo_waits outcomes 0 retries]
    apply List.map_congr_left
    intro a _
    push_cast
    ring
  · intro hall
    have := fetchGo_allfail outcomes 0 retries
      (fun i h1 h2 => hall i (by omega))
    simpa using this

/-- Witness for C7: with every attempt rejecting with `network down` and the
default single retry, the loop makes exactly two attempts and surfaces the
last error. -/
theorem fetch_retry_bounded_witness :
    (fetchWithTimeoutAndRetry (fun _ => .thrown "network down") 1).attempts
      = 2 ∧
    (fetchWithTimeoutAndRetry (fun _ => .thrown "network down") 1).result
      = Except.error "network down" :=
  (fetch_retry_bounded (fun _ => .thrown "network down") 1).2.2.2.2.2
    (fun _ _ => rfl)
